import Mathlib

/-!
# Catalog viewer (`src/App.jsx`): pagination planner, page-local filter and fetch lifecycle

A shallow embedding of the pure and state-passing parts of `src/App.jsx`.

* JavaScript numbers holding integers are modelled as `Int`. An arithmetic result that a
  double cannot hold is rounded to the nearest double, ties to even (`toDouble`): the planner's
  `cur + i`, `Number(m[1])`, and the page-count arithmetic of the `Float64` namespace, where
  `count / PAGE_SIZE` is the correctly rounded quotient. `maxPage` and `totalPages` outside
  that namespace are the same expressions on exact integers; the two agree for every count up
  to `2 ^ 53`.
* JavaScript strings are modelled as `String`; `trim` strips the ECMAScript white space and line
  terminator code points; `toLowerCase` is a parameter of `filteredList`, instantiated with
  `asciiLower` for concrete evaluations.
* A JavaScript `Set` is an insertion-ordered list without duplicates; `Array.prototype.sort`
  with the comparator `(a, b) => a - b` is an ascending sort.
* React state is an explicit record `Store`; every `setX(v)` is a field update. An asynchronous
  function is split at its `await`: a synchronous start (`fetchListBegin`) and the completion
  run on the store as it is when the request settles (`fetchListSettle`).
-/

namespace App

/-! ## Double-precision rounding -/

/-- Binary logarithm by halving, at most `fuel` times. -/
def log2Fuel : Nat → Nat → Nat
  | 0, _ => 0
  | fuel + 1, n => if n < 2 then 0 else log2Fuel fuel (n / 2) + 1

/-- Position of the leading binary digit of `n` (`0` for `n ≤ 1`); `n` halvings always
suffice, and the value is `Nat.log2 n` (`floorLog2_eq`). -/
def floorLog2 (n : Nat) : Nat := log2Fuel n n

/-- The double nearest to the natural number `m`, ties to the even significand: below `2 ^ 53`
every integer is a double; from there on `m` is cut to 53 significant bits. -/
def roundNat (m : Nat) : Nat :=
  if m < 2 ^ 53 then m
  else
    let e := floorLog2 m - 52
    let q := m / 2 ^ e
    let r := m % 2 ^ e
    let half := 2 ^ (e - 1)
    if r < half then q * 2 ^ e
    else if half < r then (q + 1) * 2 ^ e
    else if q % 2 = 0 then q * 2 ^ e
    else (q + 1) * 2 ^ e

/-- The double holding the result of an integer-valued operation whose exact value is `x`
(round to nearest, ties to even, symmetric in the sign). A magnitude past the largest finite
double stays finite here; every use below clamps it or stays far from it. -/
def toDouble (x : Int) : Int :=
  if 0 ≤ x then Int.ofNat (roundNat x.toNat) else -Int.ofNat (roundNat (-x).toNat)

/-- The integer nearest to `n / d`, ties to even. -/
def roundNearestEven (n d : Nat) : Nat :=
  let m := n / d
  let r := n % d
  if 2 * r < d then m else if d < 2 * r then m + 1 else if m % 2 = 0 then m else m + 1

/-- The binary exponent `e` of the double nearest to `a / b` (`a`, `b` positive): the one with
`2 ^ 52 ≤ a / b / 2 ^ e < 2 ^ 53`. -/
def divExponent (a b : Nat) : Int :=
  let l : Int := Int.ofNat (floorLog2 a) - Int.ofNat (floorLog2 b)
  if b * 2 ^ l.toNat ≤ a * 2 ^ (-l).toNat then l - 52 else l - 53

/-- The significand `M` of the double `M * 2 ^ e` that `a / b` evaluates to. -/
def divMantissa (a b : Nat) : Nat :=
  roundNearestEven (a * 2 ^ (-divExponent a b).toNat) (b * 2 ^ (divExponent a b).toNat)

/-- Source: `Math.ceil(a / b)` for natural `a`, `b`: the ceiling of the rounded quotient. -/
def ceilOfQuotient (a b : Nat) : Nat :=
  if 0 ≤ divExponent a b then divMantissa a b * 2 ^ (divExponent a b).toNat
  else (divMantissa a b + 2 ^ (-divExponent a b).toNat - 1) / 2 ^ (-divExponent a b).toNat

/-- The floor of the rounded quotient `a / b`. -/
def floorOfQuotient (a b : Nat) : Nat :=
  if 0 ≤ divExponent a b then divMantissa a b * 2 ^ (divExponent a b).toNat
  else divMantissa a b / 2 ^ (-divExponent a b).toNat

/-! ## Pagination planner -/

/-- An entry of the array returned by `buildPagination`: a page number or the string `"…"`. -/
inductive PageItem where
  | num (n : Int)
  | dots
  deriving DecidableEq, Repr

/-- Source: `const clamp = (n) => Math.max(1, Math.min(total, n));` (closure over `total`). -/
def clamp (total n : Int) : Int := max 1 (min total n)

/-- Source: `pages.add(x)` on an insertion-ordered `Set`; a value already present is not
added again. -/
def setAdd (pages : List Int) (x : Int) : List Int :=
  if x ∈ pages then pages else pages ++ [x]

/-- The values taken by `i` in `for (let i = -siblingCount; i <= siblingCount; i++)`,
in iteration order (none when `siblingCount < 0`). For `siblingCount < 2 ^ 53` every `i++` is
exact and these are the values of the source's counter; from `2 ^ 53` on the source's counter
stops advancing and the loop does not end, so the source returns nothing there. -/
def siblingOffsets (siblingCount : Int) : List Int :=
  (List.range (2 * siblingCount + 1).toNat).map (fun (k : Nat) => -siblingCount + Int.ofNat k)

/-- Source: `const pages = new Set([1, total]); for (...) pages.add(clamp(cur + i));`, the sum
`cur + i` being a double. -/
def collectPages (cur total siblingCount : Int) : List Int :=
  (siblingOffsets siblingCount).foldl
    (fun pages i => setAdd pages (clamp total (toDouble (cur + i))))
    (setAdd (setAdd [] 1) total)

/-- Source: `[...pages].sort((a, b) => a - b)`, the ascending numeric sort. -/
def sortAscending (pages : List Int) : List Int :=
  pages.insertionSort (fun a b => a ≤ b)

/-- The ellipsis loop over `sorted`; `prev` is `sorted[i - 1]` (`none` when `i === 0`). The
double `p - prev` of two distinct integers is `1` exactly when they differ by 1. -/
def insertDots : Option Int → List Int → List PageItem
  | _, [] => []
  | none, p :: rest => PageItem.num p :: insertDots (some p) rest
  | some prev, p :: rest =>
      if p - prev = 1 then PageItem.num p :: insertDots (some p) rest
      else PageItem.dots :: PageItem.num p :: insertDots (some p) rest

/-- Source: `function buildPagination(current, total, siblingCount)`. -/
def buildPagination (current total siblingCount : Int) : List PageItem :=
  if total ≤ 1 then [PageItem.num 1]
  else
    let cur := clamp total current
    let pages := collectPages cur total siblingCount
    let sorted := sortAscending pages
    insertDots none sorted

/-- The numeric entries of a plan, in output order. -/
def numbers : List PageItem → List Int
  | [] => []
  | PageItem.num n :: rest => n :: numbers rest
  | PageItem.dots :: rest => numbers rest

/-- The number of ellipsis markers of a plan. -/
def dotCount : List PageItem → Nat
  | [] => 0
  | PageItem.num _ :: rest => dotCount rest
  | PageItem.dots :: rest => dotCount rest + 1

/-- Well-formed ellipsis compression, stated on positions of the plan:
no two adjacent markers, every marker between two numbers, adjacent numbers differ by
exactly one, numbers separated by a marker differ by at least two. -/
def EllipsisCompressed (r : List PageItem) : Prop :=
  (∀ i, r[i]? = some PageItem.dots → r[i + 1]? ≠ some PageItem.dots) ∧
  (∀ i, r[i]? = some PageItem.dots →
    ∃ j a b, i = j + 1 ∧ r[j]? = some (PageItem.num a) ∧ r[j + 2]? = some (PageItem.num b)) ∧
  (∀ i a b, r[i]? = some (PageItem.num a) → r[i + 1]? = some (PageItem.num b) → b - a = 1) ∧
  (∀ i a b, r[i]? = some (PageItem.num a) → r[i + 1]? = some PageItem.dots →
    r[i + 2]? = some (PageItem.num b) → 2 ≤ b - a)

/-! ## Strings -/

/-- ECMAScript `WhiteSpace` and `LineTerminator` code points: what `String.prototype.trim`
strips from both ends. -/
def isJsWhiteSpace (c : Char) : Bool :=
  c.toNat ∈ [0x09, 0x0A, 0x0B, 0x0C, 0x0D, 0x20, 0xA0, 0x1680, 0x2028, 0x2029, 0x202F, 0x205F,
    0x3000, 0xFEFF] || (0x2000 ≤ c.toNat && c.toNat ≤ 0x200A)

/-- Source: `query.trim()`. -/
def trim (s : String) : String :=
  String.mk ((s.data.dropWhile isJsWhiteSpace).reverse.dropWhile isJsWhiteSpace).reverse

/-- Source: `s.includes(q)`, true when `q` occurs as a contiguous block of `s`. -/
def includes (s q : String) : Bool :=
  s.data.tails.any (fun t => q.data.isPrefixOf t)

/-- Lower-casing restricted to the letters `A`–`Z`; it agrees with `String.prototype.toLowerCase`
on ASCII strings and is the instance used for concrete evaluations. -/
def asciiLower (s : String) : String :=
  String.mk (s.data.map Char.toLower)

/-- Remainder of `s` after the literal `lit`, when `s` starts with it. -/
def afterLiteral : List Char → List Char → Option (List Char)
  | [], s => some s
  | _ :: _, [] => none
  | c :: lit, d :: s => if c = d then afterLiteral lit s else none

/-- An attempt to match `\/pokemon\/(\d+)\/` at the very start of `s`; the captured digits. -/
def matchPokemonAt (s : List Char) : Option (List Char) :=
  match afterLiteral "/pokemon/".data s with
  | none => none
  | some rest =>
    let digits := rest.takeWhile Char.isDigit
    let after := rest.dropWhile Char.isDigit
    if digits ≠ [] ∧ after.head? = some '/' then some digits else none

/-- The exact value of a string of decimal digits. -/
def decimalValue (digits : List Char) : Nat :=
  digits.foldl (fun n c => 10 * n + (c.toNat - '0'.toNat)) 0

/-- Source: `Number(m[1])` on a string of decimal digits: the double nearest to its value (a
value past the largest finite double, `Infinity` in the source, stays finite here). -/
def digitsToNat (digits : List Char) : Nat :=
  roundNat (decimalValue digits)

/-- Source: `function idFromPokemonUrl(url)`; the leftmost match of the pattern, `null` as `none`. -/
def idFromPokemonUrl (url : String) : Option Nat :=
  (url.data.tails.findSome? matchPokemonAt).map digitsToNat

/-! ## View state -/

/-- Source: `const PAGE_SIZE = 24;`. -/
def PAGE_SIZE : Int := 24

/-- An entry of `data.results` in the listing response. -/
structure ListEntry where
  name : String
  url : String
  deriving DecidableEq, Repr

/-- An element of the `list` state: a listing entry extended with `id`. -/
structure Pokemon where
  name : String
  url : String
  id : Option Nat
  deriving DecidableEq, Repr

/-- The parsed body of a listing response: `data.count` and `data.results`, the latter `none`
when the body carries no `results` array. -/
structure ListData where
  count : Int
  results : Option (List ListEntry)
  deriving DecidableEq, Repr

/-- The body of a successful detail response (the fields the view reads). -/
structure DetailData where
  id : Nat
  name : String
  height : Int
  weight : Int
  types : List String
  abilities : List (String × Bool)
  stats : List (String × Int)
  deriving DecidableEq, Repr

/-- The `useState` cells of `App`. -/
structure Store where
  page : Int
  query : String
  list : List Pokemon
  count : Int
  loading : Bool
  error : String
  selectedId : Option Nat
  detail : Option DetailData
  detailLoading : Bool
  detailError : String
  deriving DecidableEq, Repr

/-- The initial values passed to `useState`. -/
def initialStore : Store :=
  { page := 0, query := "", list := [], count := 0, loading := false, error := "",
    selectedId := none, detail := none, detailLoading := false, detailError := "" }

/-- The exact ceiling of `a / b` for a positive divisor `b`; it is what `Math.ceil(a / b)`
returns as long as the double quotient does not reach the next integer (every `a ≤ 2 ^ 53` for
`b = 24`, see `Float64.ceilDiv`). -/
def ceilDiv (a b : Int) : Int := -((-a) / b)

/-- Source: `const maxPage = Math.max(0, Math.ceil(count / PAGE_SIZE) - 1);`, on exact
integers. -/
def maxPage (count : Int) : Int := max 0 (ceilDiv count PAGE_SIZE - 1)

/-- Source: `const currentPageNumber = page + 1;`. -/
def currentPageNumber (page : Int) : Int := page + 1

/-- Source: `const totalPages = maxPage + 1;`. -/
def totalPages (count : Int) : Int := maxPage count + 1

/-- Source: `Math.ceil(count / b)` in doubles, for an integer `count` and a positive `b`. -/
def Float64.ceilDiv (count : Int) (b : Nat) : Int :=
  if 0 < count then Int.ofNat (ceilOfQuotient count.toNat b)
  else -Int.ofNat (floorOfQuotient (-count).toNat b)

/-- Source: `const maxPage = Math.max(0, Math.ceil(count / PAGE_SIZE) - 1);`, every operation
in doubles. -/
def Float64.maxPage (count : Int) : Int :=
  max 0 (toDouble (Float64.ceilDiv count PAGE_SIZE.toNat - 1))

/-- Source: `const totalPages = maxPage + 1;`, in doubles. -/
def Float64.totalPages (count : Int) : Int := toDouble (Float64.maxPage count + 1)

/-- Source: `paginationItems`, that is `buildPagination(currentPageNumber, totalPages, 2)`. -/
def paginationItems (s : Store) : List PageItem :=
  buildPagination (currentPageNumber s.page) (totalPages s.count) 2

/-- Source: `function goToPageNumber(pn)`; the scroll is outside the store. -/
def goToPageNumber (pn : Int) (s : Store) : Store :=
  let next := max 1 (min (totalPages s.count) pn)
  { s with page := next - 1 }

/-- Source: `filteredList`; `toLowerCase` is the host's `String.prototype.toLowerCase`. -/
def filteredList (toLowerCase : String → String) (query : String) (list : List Pokemon) :
    List Pokemon :=
  let q := toLowerCase (trim query)
  if q = "" then list else list.filter (fun p => includes p.name q)

/-! ## Fetch lifecycle -/

/-- A thrown JavaScript value as far as the handlers look at it: `e.name` (and its message). -/
structure JsError where
  name : String
  message : String
  deriving DecidableEq, Repr

/-- A response the `fetch` promise resolved with: its status and what `res.json()` settles to. -/
structure Response (α : Type) where
  status : Nat
  json : Except JsError α

/-- The `res.ok` flag: status in the range 200–299. -/
def Response.ok {α : Type} (res : Response α) : Bool :=
  200 ≤ res.status && res.status ≤ 299

/-- What `await fetch(url, { signal })` settles to: a rejection or a response. -/
abbrev FetchOutcome (α : Type) := Except JsError (Response α)

/-- The rejection of an aborted `fetch`: a `DOMException` named `AbortError`. -/
def abortError : JsError := { name := "AbortError", message := "The operation was aborted." }

/-- The `try` block up to `const data = await res.json();`, including
`if (!res.ok) throw new Error(...)`. -/
def awaitData {α : Type} (r : FetchOutcome α) : Except JsError α :=
  match r with
  | Except.error e => Except.error e
  | Except.ok res =>
    if !res.ok then Except.error { name := "Error", message := "HTTP " ++ toString res.status }
    else res.json

/-- The fixed message set by `fetchList` on failure. -/
def listErrorMessage : String :=
  "データの取得に失敗しました。ネットワーク状態を確認してください。"

/-- The fixed message set by `fetchDetail` on failure. -/
def detailErrorMessage : String := "詳細データの取得に失敗しました。"

/-- The synchronous start of `fetchList`: `setLoading(true); setError("");`. -/
def fetchListBegin (s : Store) : Store :=
  { s with loading := true, error := "" }

/-- The `catch` block of `fetchList`. -/
def fetchListCatch (e : JsError) (s : Store) : Store :=
  if e.name ≠ "AbortError" then { s with error := listErrorMessage } else s

/-- The rest of `fetchList` once the request has settled with `r`, run on the store as it is
then: the `try` body after the awaits, the `catch` and the `finally`. With no `results` array
`data.results.map` throws a `TypeError` after `setCount(data.count)` has run. -/
def fetchListSettle (r : FetchOutcome ListData) (s : Store) : Store :=
  let s1 : Store :=
    match awaitData r with
    | Except.ok data =>
      match data.results with
      | some results =>
        { s with
          count := data.count
          list := results.map
            (fun p => { name := p.name, url := p.url, id := idFromPokemonUrl p.url }) }
      | none =>
        fetchListCatch
          { name := "TypeError", message := "Cannot read properties of undefined" }
          { s with count := data.count }
    | Except.error e => fetchListCatch e s
  { s1 with loading := false }

/-- Source: `fetchList()` from start to completion with nothing in between. -/
def fetchList (r : FetchOutcome ListData) (s : Store) : Store :=
  fetchListSettle r (fetchListBegin s)

/-- The synchronous start of `fetchDetail`:
`setDetail(null); setDetailError(""); setDetailLoading(true);`. -/
def fetchDetailBegin (s : Store) : Store :=
  { s with detail := none, detailError := "", detailLoading := true }

/-- The rest of `fetchDetail` once the request has settled with `r`. -/
def fetchDetailSettle (r : FetchOutcome DetailData) (s : Store) : Store :=
  let s1 : Store :=
    match awaitData r with
    | Except.ok data => { s with detail := some data }
    | Except.error e =>
      if e.name ≠ "AbortError" then { s with detailError := detailErrorMessage } else s
  { s1 with detailLoading := false }

/-- Source: `fetchDetail()` from start to completion with nothing in between. -/
def fetchDetail (r : FetchOutcome DetailData) (s : Store) : Store :=
  fetchDetailSettle r (fetchDetailBegin s)

/-- A listing response with status 200 whose body parses to `data`. -/
def okResponse (data : ListData) : FetchOutcome ListData :=
  Except.ok { status := 200, json := Except.ok data }

/-- States reachable from the initial store by `goToPageNumber` calls and successful list
fetches (status 200, a body with a `results` array) that store a non-negative count. -/
inductive Reachable : Store → Prop where
  | init : Reachable initialStore
  | goTo (pn : Int) (s : Store) : Reachable s → Reachable (goToPageNumber pn s)
  | fetched (count : Int) (results : List ListEntry) (s : Store) :
      0 ≤ count → Reachable s →
      Reachable (fetchList (okResponse { count := count, results := some results }) s)

/-- As `Reachable`, with every successful fetch storing a count at least as large as the one
already stored. -/
inductive ReachableGrowing : Store → Prop where
  | init : ReachableGrowing initialStore
  | goTo (pn : Int) (s : Store) : ReachableGrowing s → ReachableGrowing (goToPageNumber pn s)
  | fetched (count : Int) (results : List ListEntry) (s : Store) :
      s.count ≤ count → ReachableGrowing s →
      ReachableGrowing (fetchList (okResponse { count := count, results := some results }) s)

/-! ## Concrete data used in evaluations -/

/-- The listing entry for Pikachu as the API returns it, with its extracted id. -/
def pikachu : Pokemon :=
  { name := "pikachu", url := "https://pokeapi.co/api/v2/pokemon/25/", id := some 25 }

/-- The listing entry for Bulbasaur with its extracted id. -/
def bulbasaur : Pokemon :=
  { name := "bulbasaur", url := "https://pokeapi.co/api/v2/pokemon/1/", id := some 1 }

/-- The listing entry for Pikipek with its extracted id. -/
def pikipek : Pokemon :=
  { name := "pikipek", url := "https://pokeapi.co/api/v2/pokemon/731/", id := some 731 }

/-- An entity whose stored name starts with a capital letter. -/
def capitalPikachu : Pokemon :=
  { name := "Pikachu", url := "https://pokeapi.co/api/v2/pokemon/25/", id := some 25 }

/-- A store showing a previously loaded page: one entity, 1302 in total. -/
def loadedStore : Store :=
  { initialStore with list := [pikachu], count := 1302 }

/-- A listing request answered with HTTP 500. -/
def http500 : FetchOutcome ListData :=
  Except.ok { status := 500,
              json := Except.error { name := "SyntaxError", message := "Unexpected token" } }

/-- A successful listing response carrying only a count. -/
def countResponse (count : Int) : FetchOutcome ListData :=
  okResponse { count := count, results := some [] }

/-- The store after: load with count 1302, go to page number 55, load again with count 0. -/
def shrunkStore : Store :=
  fetchList (countResponse 0) (goToPageNumber 55 (fetchList (countResponse 1302) initialStore))


/-! ### Facts about the rounding -/

theorem log2Fuel_eq (fuel n : Nat) (h : n ≤ fuel) : log2Fuel fuel n = Nat.log2 n := by
  induction fuel generalizing n with
  | zero =>
    have : n = 0 := by omega
    subst this
    simp [log2Fuel, Nat.log2]
  | succ fuel ih =>
    rw [log2Fuel, Nat.log2]
    by_cases h2 : n < 2
    · have h3 : ¬ (n ≥ 2) := by omega
      simp [h2, h3]
    · have : n ≥ 2 := by omega
      simp [h2, this]
      exact ih _ (by omega)

theorem floorLog2_eq (n : Nat) : floorLog2 n = Nat.log2 n := log2Fuel_eq n n (le_refl n)

theorem pow_floorLog2_le (n : Nat) (h : n ≠ 0) : 2 ^ floorLog2 n ≤ n := by
  rw [floorLog2_eq]; exact Nat.log2_self_le h

theorem le_floorLog2 (n k : Nat) (h : 2 ^ k ≤ n) : k ≤ floorLog2 n := by
  have hn : n ≠ 0 := by
    have : 0 < 2 ^ k := pow_pos (by decide) k
    omega
  rw [floorLog2_eq]; exact (Nat.le_log2 hn).mpr h

theorem floorLog2_lt (n k : Nat) (hn : n ≠ 0) (h : n < 2 ^ k) : floorLog2 n < k := by
  rw [floorLog2_eq]; exact (Nat.log2_lt hn).mpr h

theorem roundNat_of_lt (m : Nat) (h : m < 2 ^ 53) : roundNat m = m := by
  unfold roundNat
  rw [if_pos h]

/-- Rounding never takes a value of at least `2 ^ 53` below `2 ^ 53`. -/
theorem roundNat_ge (m : Nat) (h : 2 ^ 53 ≤ m) : 2 ^ 53 ≤ roundNat m := by
  have h' : ¬ m < 2 ^ 53 := by omega
  have hlog : 53 ≤ floorLog2 m := le_floorLog2 m 53 h
  have hm0 : m ≠ 0 := by
    have : 0 < 2 ^ 53 := by decide
    omega
  have hpow := pow_floorLog2_le m hm0
  obtain ⟨e, he⟩ : ∃ e, floorLog2 m = e + 53 := ⟨floorLog2 m - 53, by omega⟩
  have hq : 2 ^ 52 ≤ m / 2 ^ (e + 1) := by
    rw [Nat.le_div_iff_mul_le (pow_pos (by decide) _)]
    rw [← pow_add]
    have : 52 + (e + 1) = floorLog2 m := by omega
    rw [this]; exact hpow
  have hbase : 2 ^ 53 ≤ m / 2 ^ (e + 1) * 2 ^ (e + 1) := by
    have h1 : 2 ^ 52 * 2 ^ (e + 1) ≤ m / 2 ^ (e + 1) * 2 ^ (e + 1) :=
      Nat.mul_le_mul_right _ hq
    have h2 : 2 ^ 53 ≤ 2 ^ 52 * 2 ^ (e + 1) := by
      rw [← pow_add]
      exact Nat.pow_le_pow_right (by decide) (by omega)
    omega
  have hup : m / 2 ^ (e + 1) * 2 ^ (e + 1) ≤ (m / 2 ^ (e + 1) + 1) * 2 ^ (e + 1) :=
    Nat.mul_le_mul_right _ (Nat.le_succ _)
  have he' : floorLog2 m - 52 = e + 1 := by omega
  simp only [roundNat, h', if_false, he']
  split_ifs <;> omega

/-- Integers of magnitude at most `2 ^ 53` are doubles. -/
theorem toDouble_of_abs_le (x : Int) (h1 : -2 ^ 53 ≤ x) (h2 : x ≤ 2 ^ 53) : toDouble x = x := by
  unfold toDouble
  have h53 : roundNat (2 ^ 53) = 2 ^ 53 := by decide
  split
  · by_cases hx : x.toNat < 2 ^ 53
    · rw [roundNat_of_lt _ hx]; simp; omega
    · have : x.toNat = 2 ^ 53 := by omega
      rw [this, h53]; simp; omega
  · by_cases hx : (-x).toNat < 2 ^ 53
    · rw [roundNat_of_lt _ hx]; simp; omega
    · have : (-x).toNat = 2 ^ 53 := by omega
      rw [this, h53]; simp; omega

theorem toDouble_ge (x : Int) (h : 2 ^ 53 ≤ x) : 2 ^ 53 ≤ toDouble x := by
  unfold toDouble
  have hx : 0 ≤ x := by omega
  rw [if_pos hx]
  have := roundNat_ge x.toNat (by omega)
  simp only [Int.ofNat_eq_coe]
  omega

theorem toDouble_le (x : Int) (h : x ≤ -2 ^ 53) : toDouble x ≤ -2 ^ 53 := by
  unfold toDouble
  have hx : ¬ 0 ≤ x := by omega
  rw [if_neg hx]
  have := roundNat_ge (-x).toNat (by omega)
  simp only [Int.ofNat_eq_coe]
  omega

theorem toDouble_nonpos (x : Int) (h : x ≤ 0) : toDouble x ≤ 0 := by
  unfold toDouble
  split
  · have : x = 0 := by omega
    subst this
    decide
  · simp only [Int.ofNat_eq_coe]
    omega

/-! ### Basic facts about the planner's building blocks -/

theorem clamp_ge (total n : Int) : 1 ≤ clamp total n := by
  unfold clamp; exact le_max_left _ _

theorem clamp_le (total n : Int) (h : 1 ≤ total) : clamp total n ≤ total := by
  unfold clamp; omega

theorem clamp_of_mem (total n : Int) (h1 : 1 ≤ n) (h2 : n ≤ total) : clamp total n = n := by
  unfold clamp; omega

theorem mem_setAdd (pages : List Int) (x y : Int) :
    y ∈ setAdd pages x ↔ y ∈ pages ∨ y = x := by
  unfold setAdd
  split
  · constructor
    · intro h; exact Or.inl h
    · rintro (h | h)
      · exact h
      · subst h; assumption
  · simp

theorem nodup_setAdd (pages : List Int) (x : Int) (h : pages.Nodup) :
    (setAdd pages x).Nodup := by
  unfold setAdd
  split
  · exact h
  · rename_i hx
    rw [List.nodup_append]
    refine ⟨h, List.nodup_singleton x, ?_⟩
    intro a ha hb
    simp at hb
    subst hb
    exact hx ha

theorem length_setAdd_le (pages : List Int) (x : Int) :
    (setAdd pages x).length ≤ pages.length + 1 := by
  unfold setAdd
  split <;> simp

theorem mem_foldl_setAdd (f : Int → Int) (l : List Int) (init : List Int) (y : Int) :
    y ∈ l.foldl (fun pages i => setAdd pages (f i)) init ↔ y ∈ init ∨ ∃ i ∈ l, y = f i := by
  induction l generalizing init with
  | nil => simp
  | cons a l ih =>
    simp only [List.foldl_cons, ih, mem_setAdd, List.mem_cons, exists_eq_or_imp]
    tauto

theorem nodup_foldl_setAdd (f : Int → Int) (l : List Int) (init : List Int)
    (h : init.Nodup) : (l.foldl (fun pages i => setAdd pages (f i)) init).Nodup := by
  induction l generalizing init with
  | nil => simpa using h
  | cons a l ih => exact ih _ (nodup_setAdd _ _ h)

theorem length_foldl_setAdd_le (f : Int → Int) (l : List Int) (init : List Int) :
    (l.foldl (fun pages i => setAdd pages (f i)) init).length ≤ init.length + l.length := by
  induction l generalizing init with
  | nil => simp
  | cons a l ih =>
    have h1 := ih (setAdd init (f a))
    have h2 := length_setAdd_le init (f a)
    simp only [List.foldl_cons, List.length_cons]
    omega

theorem mem_siblingOffsets (siblingCount i : Int) :
    i ∈ siblingOffsets siblingCount ↔ -siblingCount ≤ i ∧ i ≤ siblingCount := by
  unfold siblingOffsets
  simp only [List.mem_map, List.mem_range, Int.ofNat_eq_coe]
  constructor
  · rintro ⟨k, hk, rfl⟩
    omega
  · rintro ⟨h1, h2⟩
    refine ⟨(i + siblingCount).toNat, ?_, ?_⟩ <;> omega

theorem length_siblingOffsets (siblingCount : Int) :
    (siblingOffsets siblingCount).length = (2 * siblingCount + 1).toNat := by
  simp [siblingOffsets]

theorem mem_collectPages (cur total siblingCount p : Int) :
    p ∈ collectPages cur total siblingCount ↔
      p = 1 ∨ p = total ∨
        ∃ i, -siblingCount ≤ i ∧ i ≤ siblingCount ∧ p = clamp total (toDouble (cur + i)) := by
  unfold collectPages
  rw [mem_foldl_setAdd (fun i => clamp total (toDouble (cur + i)))]
  simp only [mem_setAdd, List.not_mem_nil, false_or, mem_siblingOffsets]
  constructor
  · rintro ((h | h) | ⟨i, ⟨h1, h2⟩, h3⟩)
    · exact Or.inl h
    · exact Or.inr (Or.inl h)
    · exact Or.inr (Or.inr ⟨i, h1, h2, h3⟩)
  · rintro (h | h | ⟨i, h1, h2, h3⟩)
    · exact Or.inl (Or.inl h)
    · exact Or.inl (Or.inr h)
    · exact Or.inr ⟨i, ⟨h1, h2⟩, h3⟩

theorem nodup_collectPages (cur total siblingCount : Int) :
    (collectPages cur total siblingCount).Nodup := by
  unfold collectPages
  exact nodup_foldl_setAdd (fun i => clamp total (toDouble (cur + i))) _ _
    (nodup_setAdd _ _ (nodup_setAdd _ _ List.nodup_nil))

theorem length_collectPages_le (cur total siblingCount : Int) :
    (collectPages cur total siblingCount).length ≤ 2 + (2 * siblingCount + 1).toNat := by
  unfold collectPages
  have h := length_foldl_setAdd_le (fun i => clamp total (toDouble (cur + i)))
    (siblingOffsets siblingCount) (setAdd (setAdd [] 1) total)
  have h1 := length_setAdd_le (setAdd [] 1) total
  have h2 := length_setAdd_le [] 1
  rw [length_siblingOffsets] at h
  simp only [List.length_nil] at h2
  omega

theorem sortAscending_perm (pages : List Int) : (sortAscending pages).Perm pages :=
  List.perm_insertionSort _ pages

theorem mem_sortAscending (pages : List Int) (p : Int) :
    p ∈ sortAscending pages ↔ p ∈ pages :=
  (sortAscending_perm pages).mem_iff

theorem length_sortAscending (pages : List Int) :
    (sortAscending pages).length = pages.length :=
  (sortAscending_perm pages).length_eq

theorem sortAscending_sorted_le (pages : List Int) :
    (sortAscending pages).Sorted (fun a b => a ≤ b) :=
  List.sorted_insertionSort _ pages

theorem sortAscending_sorted_lt (pages : List Int) (h : pages.Nodup) :
    (sortAscending pages).Sorted (fun a b => a < b) := by
  have hs := sortAscending_sorted_le pages
  have hn : (sortAscending pages).Nodup := (sortAscending_perm pages).nodup_iff.mpr h
  exact (hs.lt_of_le hn)

theorem numbers_insertDots (prev : Option Int) (l : List Int) :
    numbers (insertDots prev l) = l := by
  induction l generalizing prev with
  | nil => cases prev <;> simp [insertDots, numbers]
  | cons p l ih =>
    cases prev with
    | none => simp [insertDots, numbers, ih]
    | some q =>
      simp only [insertDots]
      split <;> simp [numbers, ih]

theorem buildPagination_of_le_one (current total siblingCount : Int) (h : total ≤ 1) :
    buildPagination current total siblingCount = [PageItem.num 1] := by
  simp [buildPagination, h]

theorem buildPagination_of_one_lt (current total siblingCount : Int) (h : 1 < total) :
    buildPagination current total siblingCount =
      insertDots none (sortAscending (collectPages (clamp total current) total siblingCount)) := by
  have h' : ¬ total ≤ 1 := by omega
  simp [buildPagination, h']

/-- With `total ≤ 2 ^ 53` the rounding of a sum disappears under the clamp. -/
theorem clamp_toDouble (total x : Int) (ht : 1 ≤ total) (ht2 : total ≤ 2 ^ 53) :
    clamp total (toDouble x) = clamp total x := by
  by_cases h1 : 2 ^ 53 ≤ x
  · have := toDouble_ge x h1
    unfold clamp; omega
  · by_cases h2 : x ≤ -2 ^ 53
    · have := toDouble_le x h2
      unfold clamp; omega
    · rw [toDouble_of_abs_le x (by omega) (by omega)]

/-- Membership in the page set, phrased with the window around the clamped current page. -/
theorem mem_collectPages_window (cur total siblingCount p : Int)
    (ht : 1 ≤ total) (ht2 : total ≤ 2 ^ 53) (hc1 : 1 ≤ cur) (hc2 : cur ≤ total) :
    p ∈ collectPages cur total siblingCount ↔
      p = 1 ∨ p = total ∨ (1 ≤ p ∧ p ≤ total ∧ |p - cur| ≤ siblingCount) := by
  rw [mem_collectPages]
  simp only [clamp_toDouble _ _ ht ht2]
  constructor
  · rintro (h | h | ⟨i, h1, h2, h3⟩)
    · exact Or.inl h
    · exact Or.inr (Or.inl h)
    · by_cases hlo : cur + i < 1
      · left; rw [h3]; unfold clamp; omega
      · by_cases hhi : total < cur + i
        · right; left; rw [h3]; unfold clamp; omega
        · right; right
          have hp : p = cur + i := by rw [h3]; unfold clamp; omega
          refine ⟨by omega, by omega, ?_⟩
          rw [abs_le]; constructor <;> omega
  · rintro (h | h | ⟨h1, h2, h3⟩)
    · exact Or.inl h
    · exact Or.inr (Or.inl h)
    · rw [abs_le] at h3
      refine Or.inr (Or.inr ⟨p - cur, by omega, by omega, ?_⟩)
      unfold clamp; omega

theorem collectPages_bounds (cur total siblingCount p : Int) (ht : 1 ≤ total)
    (hp : p ∈ collectPages cur total siblingCount) : 1 ≤ p ∧ p ≤ total := by
  rw [mem_collectPages] at hp
  rcases hp with h | h | ⟨i, _, _, h⟩
  · omega
  · omega
  · rw [h]; exact ⟨clamp_ge _ _, clamp_le _ _ ht⟩

theorem head?_insertDots_none (l : List Int) :
    (insertDots none l).head? = l.head?.map PageItem.num := by
  cases l <;> simp [insertDots]

theorem getLast?_insertDots (prev : Option Int) (l : List Int) :
    (insertDots prev l).getLast? = l.getLast?.map PageItem.num := by
  induction l generalizing prev with
  | nil => cases prev <;> simp [insertDots]
  | cons p l ih =>
    have key : (PageItem.num p :: insertDots (some p) l).getLast?
        = (p :: l).getLast?.map PageItem.num := by
      cases l with
      | nil => simp [insertDots]
      | cons q l =>
        rw [List.getLast?_cons_cons]
        have h := ih (some p)
        cases hq : insertDots (some p) (q :: l) with
        | nil =>
          exfalso
          simp only [insertDots] at hq
          split at hq <;> simp at hq
        | cons x xs =>
          rw [List.getLast?_cons_cons, ← hq, h]
    cases prev with
    | none => simpa [insertDots] using key
    | some q =>
      simp only [insertDots]
      split
      · exact key
      · rw [List.getLast?_cons_cons]; exact key

theorem head?_of_sorted_min (l : List Int) (m : Int) (hs : l.Sorted (fun a b => a ≤ b))
    (hm : m ∈ l) (hall : ∀ x ∈ l, m ≤ x) : l.head? = some m := by
  cases l with
  | nil => simp at hm
  | cons a l =>
    simp only [List.head?_cons, Option.some.injEq]
    have h1 : m ≤ a := hall a (List.mem_cons_self _ _)
    rcases List.mem_cons.mp hm with h | h
    · exact h.symm
    · have h2 : a ≤ m := List.rel_of_sorted_cons hs m h
      omega

theorem getLast?_of_sorted_max (l : List Int) (m : Int) (hs : l.Sorted (fun a b => a ≤ b))
    (hm : m ∈ l) (hall : ∀ x ∈ l, x ≤ m) : l.getLast? = some m := by
  induction l with
  | nil => simp at hm
  | cons a l ih =>
    cases l with
    | nil =>
      simp only [List.mem_singleton] at hm
      simp [hm]
    | cons b l =>
      rw [List.getLast?_cons_cons]
      have hs' : (b :: l).Sorted (fun a b => a ≤ b) := hs.of_cons
      have hm' : m ∈ b :: l := by
        rcases List.mem_cons.mp hm with h | h
        · have h1 : a ≤ b := List.rel_of_sorted_cons hs b (List.mem_cons_self _ _)
          have h2 : b ≤ m := hall b (List.mem_cons_of_mem _ (List.mem_cons_self _ _))
          have : b = m := by omega
          rw [← this]; exact List.mem_cons_self _ _
        · exact h
      exact ih hs' hm' (fun x hx => hall x (List.mem_cons_of_mem _ hx))

theorem ellipsisCompressed_single (a : Int) : EllipsisCompressed [PageItem.num a] := by
  refine ⟨?_, ?_, ?_, ?_⟩
  · intro i h
    cases i <;> simp at h
  · intro i h
    cases i <;> simp at h
  · intro i x y h1 h2
    cases i <;> simp at h2
  · intro i x y h1 h2
    cases i <;> simp at h2

theorem ellipsisCompressed_cons_num (a b : Int) (rest : List PageItem) (hab : b - a = 1)
    (h : EllipsisCompressed (PageItem.num b :: rest)) :
    EllipsisCompressed (PageItem.num a :: PageItem.num b :: rest) := by
  obtain ⟨h1, h2, h3, h4⟩ := h
  refine ⟨?_, ?_, ?_, ?_⟩
  · intro i hi
    cases i with
    | zero => simp at hi
    | succ i => simpa using h1 i (by simpa using hi)
  · intro i hi
    cases i with
    | zero => simp at hi
    | succ i =>
      obtain ⟨j, x, y, hj, hx, hy⟩ := h2 i (by simpa using hi)
      exact ⟨j + 1, x, y, by omega, by simpa using hx, by simpa using hy⟩
  · intro i x y hx hy
    cases i with
    | zero =>
      simp only [List.getElem?_cons_zero, Option.some.injEq, PageItem.num.injEq] at hx
      simp only [zero_add, List.getElem?_cons_succ, List.getElem?_cons_zero, Option.some.injEq,
        PageItem.num.injEq] at hy
      omega
    | succ i => exact h3 i x y (by simpa using hx) (by simpa using hy)
  · intro i x y hx hd hy
    cases i with
    | zero => simp at hd
    | succ i => exact h4 i x y (by simpa using hx) (by simpa using hd) (by simpa using hy)

theorem ellipsisCompressed_cons_dots (a b : Int) (rest : List PageItem) (hab : 2 ≤ b - a)
    (h : EllipsisCompressed (PageItem.num b :: rest)) :
    EllipsisCompressed (PageItem.num a :: PageItem.dots :: PageItem.num b :: rest) := by
  obtain ⟨h1, h2, h3, h4⟩ := h
  refine ⟨?_, ?_, ?_, ?_⟩
  · intro i hi
    cases i with
    | zero => simp at hi
    | succ i =>
      cases i with
      | zero => simp
      | succ i => simpa using h1 i (by simpa using hi)
  · intro i hi
    cases i with
    | zero => simp at hi
    | succ i =>
      cases i with
      | zero => exact ⟨0, a, b, rfl, by simp, by simp⟩
      | succ i =>
        obtain ⟨j, x, y, hj, hx, hy⟩ := h2 i (by simpa using hi)
        exact ⟨j + 2, x, y, by omega, by simpa using hx, by simpa using hy⟩
  · intro i x y hx hy
    cases i with
    | zero => simp at hy
    | succ i =>
      cases i with
      | zero => simp at hx
      | succ i => exact h3 i x y (by simpa using hx) (by simpa using hy)
  · intro i x y hx hd hy
    cases i with
    | zero =>
      simp only [List.getElem?_cons_zero, Option.some.injEq, PageItem.num.injEq] at hx
      simp only [zero_add, List.getElem?_cons_succ, List.getElem?_cons_zero, Option.some.injEq,
        PageItem.num.injEq] at hy
      omega
    | succ i =>
      cases i with
      | zero => simp at hx
      | succ i => exact h4 i x y (by simpa using hx) (by simpa using hd) (by simpa using hy)

/-- The ellipsis loop applied to a strictly increasing tail yields a well-formed compression. -/
theorem ellipsisCompressed_insertDots (prev : Int) (l : List Int)
    (h : List.Chain (fun a b => a < b) prev l) :
    EllipsisCompressed (PageItem.num prev :: insertDots (some prev) l) := by
  induction l generalizing prev with
  | nil => simpa [insertDots] using ellipsisCompressed_single prev
  | cons p l ih =>
    rw [List.chain_cons] at h
    have ih' := ih p h.2
    simp only [insertDots]
    split
    · rename_i hp
      exact ellipsisCompressed_cons_num prev p _ hp ih'
    · rename_i hp
      exact ellipsisCompressed_cons_dots prev p _ (by omega) ih'

theorem ellipsisCompressed_insertDots_none (l : List Int) (hne : l ≠ [])
    (h : l.Sorted (fun a b => a < b)) : EllipsisCompressed (insertDots none l) := by
  cases l with
  | nil => exact absurd rfl hne
  | cons a l =>
    simp only [insertDots]
    apply ellipsisCompressed_insertDots
    rw [List.Sorted, List.pairwise_cons] at h
    rw [List.chain_iff_pairwise]
    exact List.pairwise_cons.mpr ⟨h.1, h.2⟩

/-- The sorted page set of the planner (`sorted` in the source), for `total > 1`. -/
theorem sorted_facts (current total siblingCount : Int) (ht : 1 < total) :
    let sorted := sortAscending (collectPages (clamp total current) total siblingCount)
    sorted.Sorted (fun a b => a < b) ∧ 1 ∈ sorted ∧ total ∈ sorted ∧
      ∀ p ∈ sorted, 1 ≤ p ∧ p ≤ total := by
  refine ⟨sortAscending_sorted_lt _ (nodup_collectPages _ _ _), ?_, ?_, ?_⟩
  · rw [mem_sortAscending, mem_collectPages]; exact Or.inl rfl
  · rw [mem_sortAscending, mem_collectPages]; exact Or.inr (Or.inl rfl)
  · intro p hp
    rw [mem_sortAscending] at hp
    exact collectPages_bounds _ _ _ _ (by omega) hp

theorem numbers_buildPagination_of_one_lt (current total siblingCount : Int) (ht : 1 < total) :
    numbers (buildPagination current total siblingCount) =
      sortAscending (collectPages (clamp total current) total siblingCount) := by
  rw [buildPagination_of_one_lt _ _ _ ht, numbers_insertDots]

/-! ## The claims about the pagination planner -/

/-- C1: for every `total ≥ 1`, every `current` and every `siblingCount ≥ 0`, the plan returned by
`buildPagination` is non-empty, its first entry is the number 1 and its last entry is the
number `total`. -/
theorem buildPagination_first_last (current total siblingCount : Int)
    (ht : 1 ≤ total) (hs : 0 ≤ siblingCount) :
    buildPagination current total siblingCount ≠ [] ∧
      (buildPagination current total siblingCount).head? = some (PageItem.num 1) ∧
      (buildPagination current total siblingCount).getLast? = some (PageItem.num total) := by
  have _ := hs
  by_cases h1 : total ≤ 1
  · have ht1 : total = 1 := by omega
    rw [buildPagination_of_le_one _ _ _ h1]
    subst ht1
    simp
  · have hlt : 1 < total := by omega
    obtain ⟨hsorted, hone, htot, hbounds⟩ := sorted_facts current total siblingCount hlt
    have hle : (sortAscending (collectPages (clamp total current) total siblingCount)).Sorted
        (fun a b => a ≤ b) := sortAscending_sorted_le _
    have hhead := head?_of_sorted_min _ 1 hle hone (fun x hx => (hbounds x hx).1)
    have hlast := getLast?_of_sorted_max _ total hle htot (fun x hx => (hbounds x hx).2)
    rw [buildPagination_of_one_lt _ _ _ hlt]
    refine ⟨?_, ?_, ?_⟩
    · intro hnil
      have := head?_insertDots_none
        (sortAscending (collectPages (clamp total current) total siblingCount))
      rw [hnil, hhead] at this
      simp at this
    · rw [head?_insertDots_none, hhead]; rfl
    · rw [getLast?_insertDots, hlast]; rfl

/-- Witness for C1 at `buildPagination(28, 55, 2)`. -/
theorem buildPagination_first_last_witness :
    (1 : Int) ≤ 55 ∧ (0 : Int) ≤ 2 ∧
    (buildPagination 28 55 2 ≠ [] ∧
      (buildPagination 28 55 2).head? = some (PageItem.num 1) ∧
      (buildPagination 28 55 2).getLast? = some (PageItem.num 55)) :=
  ⟨by decide, by decide, buildPagination_first_last 28 55 2 (by decide) (by decide)⟩

/-- C2: for every `total ≥ 1`, every `current` and every `siblingCount ≥ 0`, the plan is a
well-formed ellipsis compression: no two markers are adjacent, every marker stands between two
numbers, adjacent numbers differ by exactly 1 and numbers separated by a marker differ by at
least 2. -/
theorem buildPagination_ellipsisCompressed (current total siblingCount : Int)
    (ht : 1 ≤ total) (hs : 0 ≤ siblingCount) :
    EllipsisCompressed (buildPagination current total siblingCount) := by
  have _ := hs
  have _ := ht
  by_cases h1 : total ≤ 1
  · rw [buildPagination_of_le_one _ _ _ h1]
    exact ellipsisCompressed_single 1
  · have hlt : 1 < total := by omega
    obtain ⟨hsorted, hone, _, _⟩ := sorted_facts current total siblingCount hlt
    rw [buildPagination_of_one_lt _ _ _ hlt]
    exact ellipsisCompressed_insertDots_none _ (List.ne_nil_of_mem hone) hsorted

/-- Witness for C2 at `buildPagination(28, 55, 2)`. -/
theorem buildPagination_ellipsisCompressed_witness :
    (1 : Int) ≤ 55 ∧ (0 : Int) ≤ 2 ∧ EllipsisCompressed (buildPagination 28 55 2) :=
  ⟨by decide, by decide, buildPagination_ellipsisCompressed 28 55 2 (by decide) (by decide)⟩

/-- C3, as stated, fails beyond `2 ^ 53`, where `cur + i` is rounded to a double: in
`buildPagination(2^53, 2^53 + 10, 2)` the page `2^53 + 1` next to the current page is not among
the numeric entries, and in `buildPagination(2^53 + 2, 2^53 + 10, 1)` the page `2^53`, at
distance 2 from the current page, is. -/
theorem buildPagination_numbers_rounded :
    numbers (buildPagination 9007199254740992 9007199254741002 2)
      = [1, 9007199254740990, 9007199254740991, 9007199254740992, 9007199254740994,
          9007199254741002] ∧
    (9007199254740993 : Int) ∉ numbers (buildPagination 9007199254740992 9007199254741002 2) ∧
    (1 ≤ (9007199254740993 : Int) ∧ (9007199254740993 : Int) ≤ 9007199254741002 ∧
      |(9007199254740993 : Int) - clamp 9007199254741002 9007199254740992| ≤ 2) ∧
    (9007199254740992 : Int) ∈ numbers (buildPagination 9007199254740994 9007199254741002 1) ∧
    ¬ ((9007199254740992 : Int) = 1 ∨ (9007199254740992 : Int) = 9007199254741002 ∨
      (1 ≤ (9007199254740992 : Int) ∧ (9007199254740992 : Int) ≤ 9007199254741002 ∧
        |(9007199254740992 : Int) - clamp 9007199254741002 9007199254740994| ≤ 1)) := by
  decide

/-- C3, amended: for every `total` with `1 ≤ total ≤ 2 ^ 53`, every `current` and every
`siblingCount ≥ 0`, with `cur` the clamped current page, the numeric entries of the plan are
strictly increasing and are exactly the members of
`{1, total} ∪ {p | 1 ≤ p ≤ total, |p - cur| ≤ siblingCount}`; with `siblingCount = 2` every
page of `[1, total]` within distance 2 of `cur` occurs exactly once. -/
theorem buildPagination_numbers (current total siblingCount : Int)
    (ht : 1 ≤ total) (ht2 : total ≤ 2 ^ 53) (hs : 0 ≤ siblingCount) :
    (numbers (buildPagination current total siblingCount)).Sorted (fun a b => a < b) ∧
      (∀ p, p ∈ numbers (buildPagination current total siblingCount) ↔
        (p = 1 ∨ p = total ∨
          (1 ≤ p ∧ p ≤ total ∧ |p - clamp total current| ≤ siblingCount))) ∧
      (∀ p, 1 ≤ p → p ≤ total → (|p - clamp total current| ≤ 2 ∨ |p - current| ≤ 2) →
        (numbers (buildPagination current total 2)).count p = 1) := by
  have key : ∀ sib : Int, 0 ≤ sib →
      (numbers (buildPagination current total sib)).Sorted (fun a b => a < b) ∧
      (∀ p, p ∈ numbers (buildPagination current total sib) ↔
        (p = 1 ∨ p = total ∨ (1 ≤ p ∧ p ≤ total ∧ |p - clamp total current| ≤ sib))) := by
    intro sib hsib
    by_cases h1 : total ≤ 1
    · have ht1 : total = 1 := by omega
      rw [buildPagination_of_le_one _ _ _ h1]
      subst ht1
      refine ⟨by simp [numbers], ?_⟩
      intro p
      simp only [numbers, List.mem_singleton]
      constructor
      · intro h; exact Or.inl h
      · rintro (h | h | ⟨h2, h3, _⟩)
        · exact h
        · exact h
        · omega
    · have hlt : 1 < total := by omega
      rw [numbers_buildPagination_of_one_lt _ _ _ hlt]
      refine ⟨sortAscending_sorted_lt _ (nodup_collectPages _ _ _), ?_⟩
      intro p
      rw [mem_sortAscending]
      exact mem_collectPages_window _ _ _ _ ht ht2 (clamp_ge _ _) (clamp_le _ _ ht)
  refine ⟨(key siblingCount hs).1, (key siblingCount hs).2, ?_⟩
  intro p hp1 hp2 hp3
  obtain ⟨hsorted, hmem⟩ := key 2 (by decide)
  have hwin : |p - clamp total current| ≤ 2 := by
    rcases hp3 with h | h
    · exact h
    · rw [abs_le] at h ⊢
      unfold clamp
      constructor <;> omega
  exact List.count_eq_one_of_mem hsorted.nodup ((hmem p).mpr (Or.inr (Or.inr ⟨hp1, hp2, hwin⟩)))

/-- Witness for C3 at `buildPagination(28, 55, 2)`. -/
theorem buildPagination_numbers_witness :
    (1 : Int) ≤ 55 ∧ (55 : Int) ≤ 2 ^ 53 ∧ (0 : Int) ≤ 2 ∧
    ((numbers (buildPagination 28 55 2)).Sorted (fun a b => a < b) ∧
      (∀ p, p ∈ numbers (buildPagination 28 55 2) ↔
        (p = 1 ∨ p = 55 ∨ (1 ≤ p ∧ p ≤ 55 ∧ |p - clamp 55 28| ≤ 2))) ∧
      (∀ p, 1 ≤ p → p ≤ 55 → (|p - clamp 55 28| ≤ 2 ∨ |p - 28| ≤ 2) →
        (numbers (buildPagination 28 55 2)).count p = 1)) :=
  ⟨by decide, by norm_num, by decide,
    buildPagination_numbers 28 55 2 (by decide) (by norm_num) (by decide)⟩

theorem setAdd_of_not_mem (pages : List Int) (x : Int) (h : x ∉ pages) :
    setAdd pages x = pages ++ [x] := by
  simp [setAdd, h]

theorem insertDots_some_adjacent (prev p : Int) (rest : List Int) (h : p - prev = 1) :
    insertDots (some prev) (p :: rest) = PageItem.num p :: insertDots (some p) rest := by
  simp [insertDots, h]

theorem insertDots_some_gap (prev p : Int) (rest : List Int) (h : p - prev ≠ 1) :
    insertDots (some prev) (p :: rest)
      = PageItem.dots :: PageItem.num p :: insertDots (some p) rest := by
  simp [insertDots, h]

/-- An ascending list that is a rearrangement of `pages` is what the sort returns. -/
theorem sortAscending_eq_of_perm (pages l : List Int) (hp : l.Perm pages)
    (hs : l.Sorted (fun a b => a ≤ b)) : sortAscending pages = l :=
  List.eq_of_perm_of_sorted ((sortAscending_perm pages).trans hp.symm)
    (sortAscending_sorted_le pages) hs

theorem siblingOffsets_two : siblingOffsets 2 = [-2, -1, 0, 1, 2] := by decide

/-- C4, as stated, fails beyond `2 ^ 53`: `current = 2^53`, `total = 2^53 + 10` meet
`total ≥ 9` and `5 ≤ current ≤ total - 4`, yet the plan has ten entries, without the page
`current + 1` and with a third marker. -/
theorem buildPagination_middle_rounded :
    (9 : Int) ≤ 9007199254741002 ∧ (5 : Int) ≤ 9007199254740992 ∧
    (9007199254740992 : Int) ≤ 9007199254741002 - 4 ∧
    buildPagination 9007199254740992 9007199254741002 2 =
      [PageItem.num 1, PageItem.dots, PageItem.num 9007199254740990,
        PageItem.num 9007199254740991, PageItem.num 9007199254740992, PageItem.dots,
        PageItem.num 9007199254740994, PageItem.dots, PageItem.num 9007199254741002] ∧
    buildPagination 9007199254740992 9007199254741002 2 ≠
      [PageItem.num 1, PageItem.dots, PageItem.num (9007199254740992 - 2),
        PageItem.num (9007199254740992 - 1), PageItem.num 9007199254740992,
        PageItem.num (9007199254740992 + 1), PageItem.num (9007199254740992 + 2),
        PageItem.dots, PageItem.num 9007199254741002] := by
  decide

/-- C4, amended: for every `total` with `9 ≤ total ≤ 2 ^ 53` and every `current` with
`5 ≤ current ≤ total - 4`, `buildPagination(current, total, 2)` is the nine-entry plan
`[1, …, current-2, current-1, current, current+1, current+2, …, total]`, and
`buildPagination(28, 55, 2) = [1, …, 26, 27, 28, 29, 30, …, 55]`. -/
theorem buildPagination_middle (current total : Int) (ht : 9 ≤ total) (ht2 : total ≤ 2 ^ 53)
    (hc1 : 5 ≤ current) (hc2 : current ≤ total - 4) :
    buildPagination current total 2 =
        [PageItem.num 1, PageItem.dots, PageItem.num (current - 2), PageItem.num (current - 1),
          PageItem.num current, PageItem.num (current + 1), PageItem.num (current + 2),
          PageItem.dots, PageItem.num total] ∧
      buildPagination 28 55 2 =
        [PageItem.num 1, PageItem.dots, PageItem.num 26, PageItem.num 27, PageItem.num 28,
          PageItem.num 29, PageItem.num 30, PageItem.dots, PageItem.num 55] := by
  refine ⟨?_, by decide⟩
  rw [buildPagination_of_one_lt _ _ _ (by omega)]
  have hcur : clamp total current = current := clamp_of_mem _ _ (by omega) (by omega)
  have hpages : collectPages current total 2 =
      [1, total, current - 2, current - 1, current, current + 1, current + 2] := by
    unfold collectPages
    rw [siblingOffsets_two]
    have e1 : clamp total (current + -2) = current - 2 := by unfold clamp; omega
    have e2 : clamp total (current + -1) = current - 1 := by unfold clamp; omega
    have e3 : clamp total (current + 0) = current := by unfold clamp; omega
    have e4 : clamp total (current + 1) = current + 1 := by unfold clamp; omega
    have e5 : clamp total (current + 2) = current + 2 := by unfold clamp; omega
    simp only [List.foldl_cons, List.foldl_nil, clamp_toDouble _ _ (by omega : 1 ≤ total) ht2,
      e1, e2, e3, e4, e5]
    rw [setAdd_of_not_mem [] 1 (by simp)]
    rw [setAdd_of_not_mem _ total (by simp; omega)]
    rw [setAdd_of_not_mem _ (current - 2) (by simp; omega)]
    rw [setAdd_of_not_mem _ (current - 1) (by simp; omega)]
    rw [setAdd_of_not_mem _ current (by simp; omega)]
    rw [setAdd_of_not_mem _ (current + 1) (by simp; omega)]
    rw [setAdd_of_not_mem _ (current + 2) (by simp; omega)]
    rfl
  have hsorted : sortAscending [1, total, current - 2, current - 1, current, current + 1,
      current + 2] = [1, current - 2, current - 1, current, current + 1, current + 2, total] := by
    apply sortAscending_eq_of_perm
    · exact List.Perm.cons 1 (List.perm_append_singleton total
        [current - 2, current - 1, current, current + 1, current + 2])
    · simp only [List.Sorted, List.pairwise_cons, List.mem_cons, List.mem_singleton,
        List.not_mem_nil, forall_eq_or_imp, forall_eq, List.Pairwise.nil, false_imp_iff,
        implies_true, and_true]
      omega
  rw [hcur, hpages, hsorted]
  rw [insertDots, insertDots_some_gap _ _ _ (by omega),
    insertDots_some_adjacent _ _ _ (by omega), insertDots_some_adjacent _ _ _ (by omega),
    insertDots_some_adjacent _ _ _ (by omega), insertDots_some_adjacent _ _ _ (by omega),
    insertDots_some_gap _ _ _ (by omega), insertDots]

/-- Witness for C4 at `current = 28`, `total = 55`. -/
theorem buildPagination_middle_witness :
    (9 : Int) ≤ 55 ∧ (55 : Int) ≤ 2 ^ 53 ∧ (5 : Int) ≤ 28 ∧ (28 : Int) ≤ 55 - 4 ∧
    (buildPagination 28 55 2 =
        [PageItem.num 1, PageItem.dots, PageItem.num (28 - 2), PageItem.num (28 - 1),
          PageItem.num 28, PageItem.num (28 + 1), PageItem.num (28 + 2),
          PageItem.dots, PageItem.num 55] ∧
      buildPagination 28 55 2 =
        [PageItem.num 1, PageItem.dots, PageItem.num 26, PageItem.num 27, PageItem.num 28,
          PageItem.num 29, PageItem.num 30, PageItem.dots, PageItem.num 55]) :=
  ⟨by decide, by norm_num, by decide, by decide,
    buildPagination_middle 28 55 (by decide) (by norm_num) (by decide) (by decide)⟩

theorem length_eq_numbers_add_dotCount (r : List PageItem) :
    r.length = (numbers r).length + dotCount r := by
  induction r with
  | nil => rfl
  | cons x r ih =>
    cases x with
    | num n => simp only [List.length_cons, numbers, dotCount, ih]; omega
    | dots => simp only [List.length_cons, numbers, dotCount, ih]; omega

/-- Markers emitted after `prev` when the remaining pages are the end page `total` and a window
`[lo, hi]` of consecutive pages: at most one before the window and one before `total`. -/
theorem dotCount_insertDots_le (lo hi total : Int) (hlh : lo ≤ hi) (hht : hi ≤ total)
    (prev : Int) (l : List Int)
    (hs : (prev :: l).Sorted (fun a b => a < b))
    (hmem : ∀ p ∈ l, p = total ∨ (lo ≤ p ∧ p ≤ hi))
    (hcomp : ∀ p, prev < p → (p = total ∨ (lo ≤ p ∧ p ≤ hi)) → p ∈ l) :
    dotCount (insertDots (some prev) l) ≤
      (if prev < lo then 1 else 0) + (if prev < total then 1 else 0) := by
  induction l generalizing prev with
  | nil => simp [insertDots, dotCount]
  | cons p rest ih =>
    have hs' : (p :: rest).Sorted (fun a b => a < b) := hs.of_cons
    have hpp : prev < p := List.rel_of_sorted_cons hs p (List.mem_cons_self _ _)
    have hrest : ∀ q ∈ rest, p < q := fun q hq => List.rel_of_sorted_cons hs' q hq
    have hmem' : ∀ q ∈ rest, q = total ∨ (lo ≤ q ∧ q ≤ hi) :=
      fun q hq => hmem q (List.mem_cons_of_mem _ hq)
    have hcomp' : ∀ q, p < q → (q = total ∨ (lo ≤ q ∧ q ≤ hi)) → q ∈ rest := by
      intro q hq hq'
      rcases List.mem_cons.mp (hcomp q (by omega) hq') with h | h
      · omega
      · exact h
    have ih' := ih p hs' hmem' hcomp'
    have hp := hmem p (List.mem_cons_self _ _)
    by_cases hadj : p - prev = 1
    · rw [insertDots_some_adjacent _ _ _ hadj]
      simp only [dotCount]
      split_ifs at ih' ⊢ <;> omega
    · rw [insertDots_some_gap _ _ _ hadj]
      simp only [dotCount]
      have hnext : ¬ (prev + 1 = total ∨ (lo ≤ prev + 1 ∧ prev + 1 ≤ hi)) := by
        intro h
        rcases List.mem_cons.mp (hcomp (prev + 1) (by omega) h) with h1 | h1
        · omega
        · have := hrest _ h1
          omega
      have hp_le : p ≤ total := by rcases hp with h | h <;> omega
      split_ifs at ih' ⊢ <;> omega

/-- C5, as stated, fails beyond `2 ^ 53`: `buildPagination(2^53 + 2, 2^53 + 100, 1)` is
`[1, …, 2^53, …, 2^53 + 2, …, 2^53 + 4, …, 2^53 + 100]`, with 4 markers and 9 entries where
the claim allows 2 markers and `2 * 1 + 5 = 7` entries. -/
theorem buildPagination_size_rounded :
    buildPagination 9007199254740994 9007199254741092 1 =
      [PageItem.num 1, PageItem.dots, PageItem.num 9007199254740992, PageItem.dots,
        PageItem.num 9007199254740994, PageItem.dots, PageItem.num 9007199254740996,
        PageItem.dots, PageItem.num 9007199254741092] ∧
    dotCount (buildPagination 9007199254740994 9007199254741092 1) = 4 ∧
    (buildPagination 9007199254740994 9007199254741092 1).length = 9 ∧
    ¬ (dotCount (buildPagination 9007199254740994 9007199254741092 1) ≤ 2) ∧
    ¬ (((buildPagination 9007199254740994 9007199254741092 1).length : Int) ≤ 2 * 1 + 5) := by
  decide

/-- C5, amended: for every `total`, every `current` and every `siblingCount ≥ 0`, the plan has
at most `2 * siblingCount + 3` numeric entries; and for every `total ≤ 2 ^ 53` it has at most 2
ellipsis markers and therefore at most `2 * siblingCount + 5` entries, whatever the total page
count in that range. -/
theorem buildPagination_size (current total siblingCount : Int) (hs : 0 ≤ siblingCount) :
    ((numbers (buildPagination current total siblingCount)).length : Int)
        ≤ 2 * siblingCount + 3 ∧
      (total ≤ 2 ^ 53 →
        dotCount (buildPagination current total siblingCount) ≤ 2 ∧
        ((buildPagination current total siblingCount).length : Int)
          ≤ 2 * siblingCount + 5) := by
  have hnum : ((numbers (buildPagination current total siblingCount)).length : Int)
      ≤ 2 * siblingCount + 3 := by
    by_cases h1 : total ≤ 1
    · rw [buildPagination_of_le_one _ _ _ h1]
      simp only [numbers, List.length_singleton, Nat.cast_one]
      omega
    · rw [numbers_buildPagination_of_one_lt _ _ _ (by omega), length_sortAscending]
      have := length_collectPages_le (clamp total current) total siblingCount
      omega
  have hdots : total ≤ 2 ^ 53 → dotCount (buildPagination current total siblingCount) ≤ 2 := by
    intro ht2
    by_cases h1 : total ≤ 1
    · rw [buildPagination_of_le_one _ _ _ h1]
      simp [dotCount]
    · have hlt : 1 < total := by omega
      have ht : 1 ≤ total := by omega
      obtain ⟨hsorted, hone, _, hbounds⟩ := sorted_facts current total siblingCount hlt
      have hwin : ∀ p, p ∈ sortAscending (collectPages (clamp total current) total siblingCount) ↔
          (p = 1 ∨ p = total ∨
            (1 ≤ p ∧ p ≤ total ∧ |p - clamp total current| ≤ siblingCount)) := by
        intro p
        rw [mem_sortAscending]
        exact mem_collectPages_window _ _ _ _ ht ht2 (clamp_ge _ _) (clamp_le _ _ ht)
      rw [buildPagination_of_one_lt _ _ _ hlt]
      have hc1 := clamp_ge total current
      have hc2 := clamp_le total current ht
      generalize clamp total current = cur at *
      generalize sortAscending (collectPages cur total siblingCount) = sorted at *
      cases sorted with
      | nil => simp at hone
      | cons x l =>
        simp only [insertDots, dotCount]
        have hx : 1 ≤ x := (hbounds x (List.mem_cons_self _ _)).1
        have hl : ∀ q ∈ l, x < q := fun q hq => List.rel_of_sorted_cons hsorted q hq
        have hb := dotCount_insertDots_le (max 1 (cur - siblingCount))
          (min total (cur + siblingCount)) total (by omega) (by omega) x l hsorted
          (by
            intro q hq
            have hq1 := hl q hq
            rcases (hwin q).mp (List.mem_cons_of_mem _ hq) with h | h | ⟨h2, h3, h4⟩
            · omega
            · exact Or.inl h
            · rw [abs_le] at h4
              right; constructor <;> omega)
          (by
            intro q hq hq'
            have hin : q ∈ x :: l := by
              rw [hwin q]
              rcases hq' with h | ⟨h2, h3⟩
              · exact Or.inr (Or.inl h)
              · refine Or.inr (Or.inr ⟨by omega, by omega, ?_⟩)
                rw [abs_le]; constructor <;> omega
            rcases List.mem_cons.mp hin with h | h
            · omega
            · exact h)
        split_ifs at hb <;> omega
  refine ⟨hnum, fun ht2 => ⟨hdots ht2, ?_⟩⟩
  have hd := hdots ht2
  rw [length_eq_numbers_add_dotCount]
  push_cast
  omega

/-- Witness for C5 at `buildPagination(28, 55, 2)`: at most 7 numbers, 2 markers, 9 entries. -/
theorem buildPagination_size_witness :
    (0 : Int) ≤ 2 ∧ (55 : Int) ≤ 2 ^ 53 ∧
    ((numbers (buildPagination 28 55 2)).length : Int) ≤ 2 * 2 + 3 ∧
    dotCount (buildPagination 28 55 2) ≤ 2 ∧
    ((buildPagination 28 55 2).length : Int) ≤ 2 * 2 + 5 :=
  ⟨by decide, by norm_num, (buildPagination_size 28 55 2 (by decide)).1,
    (buildPagination_size 28 55 2 (by decide)).2 (by norm_num)⟩

/-! ## The page-local filter -/

theorem includes_iff (s q : String) :
    includes s q = true ↔ ∃ pre post, s.data = pre ++ q.data ++ post := by
  unfold includes
  simp only [List.any_eq_true, List.mem_tails]
  constructor
  · rintro ⟨t, ⟨pre, hpre⟩, ht⟩
    obtain ⟨post, hpost⟩ := List.isPrefixOf_iff_prefix.mp ht
    exact ⟨pre, post, by rw [← hpre, ← hpost, List.append_assoc]⟩
  · rintro ⟨pre, post, h⟩
    refine ⟨q.data ++ post, ⟨pre, by rw [h, List.append_assoc]⟩, ?_⟩
    exact List.isPrefixOf_iff_prefix.mpr ⟨post, rfl⟩

theorem includes_empty (s : String) : includes s "" = true := by
  rw [includes_iff]
  exact ⟨[], s.data, rfl⟩

theorem filteredList_eq_filter (toLowerCase : String → String) (query : String)
    (list : List Pokemon) :
    filteredList toLowerCase query list
      = list.filter (fun p => includes p.name (toLowerCase (trim query))) := by
  unfold filteredList
  by_cases hq : toLowerCase (trim query) = ""
  · simp only [hq, if_true, includes_empty, List.filter_true]
  · simp only [hq, if_false]

/-- C6, as stated, fails: with query `"pika"` the entity named `"Pikachu"` qualifies when case is
ignored on both sides, yet `filteredList` drops it, because only the query is lower-cased. -/
theorem filteredList_uppercase_name_dropped :
    includes (asciiLower capitalPikachu.name) (asciiLower (trim "pika")) = true ∧
      filteredList asciiLower "pika" [capitalPikachu] = [] := by
  decide

/-- C6, amended: `filteredList` keeps, in the original order and with their multiplicity,
exactly those entities whose name as stored contains `toLowerCase(trim(query))` (it is the
list filtered by that test); when every name of the list is already lower case this is the
match that ignores case on both sides, `lowercase(name)` contains `lowercase(trim(query))`;
when `trim(query)` is empty the result is the whole list; and the query `" PIKA "` keeps the
entities named `"pikachu"` and drops the others. -/
theorem filteredList_spec (toLowerCase : String → String) (query : String)
    (list : List Pokemon) :
    filteredList toLowerCase query list
        = list.filter (fun p => includes p.name (toLowerCase (trim query))) ∧
      (filteredList toLowerCase query list).Sublist list ∧
      (∀ p, p ∈ filteredList toLowerCase query list ↔
        p ∈ list ∧ ∃ pre post, p.name.data = pre ++ (toLowerCase (trim query)).data ++ post) ∧
      ((∀ p ∈ list, toLowerCase p.name = p.name) →
        filteredList toLowerCase query list
          = list.filter (fun p => includes (toLowerCase p.name) (toLowerCase (trim query)))) ∧
      (trim query = "" → toLowerCase "" = "" → filteredList toLowerCase query list = list) ∧
      filteredList asciiLower " PIKA " [bulbasaur, pikachu, pikipek, pikachu]
        = [pikachu, pikachu] := by
  refine ⟨filteredList_eq_filter _ _ _, ?_, ?_, ?_, ?_, by decide⟩
  · rw [filteredList_eq_filter]
    exact List.filter_sublist _
  · intro p
    rw [filteredList_eq_filter, List.mem_filter, includes_iff]
  · intro hlow
    rw [filteredList_eq_filter]
    apply List.filter_congr
    intro p hp
    rw [hlow p hp]
  · intro hq hl
    unfold filteredList
    simp [hq, hl]

/-- Witness for C6: over the lower-case names bulbasaur, pikachu, pikipek, pikachu the query
`" PIKA "` is folded to `"pika"` and keeps the two pikachu entries only; a query of blanks
leaves the list as it is. -/
theorem filteredList_spec_witness :
    (∀ p ∈ [bulbasaur, pikachu, pikipek, pikachu], asciiLower p.name = p.name) ∧
      asciiLower (trim " PIKA ") = "pika" ∧
      filteredList asciiLower " PIKA " [bulbasaur, pikachu, pikipek, pikachu]
        = [pikachu, pikachu] ∧
      trim "   " = "" ∧ asciiLower "" = "" ∧
      filteredList asciiLower "   " [bulbasaur, pikachu, pikipek, pikachu]
        = [bulbasaur, pikachu, pikipek, pikachu] :=
  ⟨by decide, by decide,
    ((filteredList_spec asciiLower " PIKA " [bulbasaur, pikachu, pikipek, pikachu]).2.2.2.1
      (by decide)).trans (by decide),
    by decide, by decide,
    (filteredList_spec asciiLower "   " [bulbasaur, pikachu, pikipek, pikachu]).2.2.2.2.1
      (by decide) (by decide)⟩

/-! ## The fetch lifecycle -/

/-- C7, as stated, fails: a listing fetch answered with HTTP 500 sets the fixed message and
clears `loading`, but the previously loaded list stays in the store. -/
theorem fetchList_http500_keeps_list :
    (fetchList http500 loadedStore).error = listErrorMessage ∧
      (fetchList http500 loadedStore).loading = false ∧
      (fetchList http500 loadedStore).list = [pikachu] ∧
      (fetchList http500 loadedStore).list ≠ [] := by
  decide

/-- C7, amended: when the list fetch ends with a non-success response or with a rejection that
is not a cancellation, the resulting state has `error` equal to the fixed list-failure message
and `loading` equal to `false`, while `list` and `count` keep the values they had. -/
theorem fetchList_failure (s : Store) :
    (∀ res : Response ListData, res.ok = false →
      (fetchList (Except.ok res) s).error = listErrorMessage ∧
      (fetchList (Except.ok res) s).loading = false ∧
      (fetchList (Except.ok res) s).list = s.list ∧
      (fetchList (Except.ok res) s).count = s.count ∧
      (fetchListSettle (Except.ok res) s).error = listErrorMessage ∧
      (fetchListSettle (Except.ok res) s).loading = false ∧
      (fetchListSettle (Except.ok res) s).list = s.list ∧
      (fetchListSettle (Except.ok res) s).count = s.count) ∧
    (∀ e : JsError, e.name ≠ "AbortError" →
      (fetchList (Except.error e) s).error = listErrorMessage ∧
      (fetchList (Except.error e) s).loading = false ∧
      (fetchList (Except.error e) s).list = s.list ∧
      (fetchList (Except.error e) s).count = s.count ∧
      (fetchListSettle (Except.error e) s).error = listErrorMessage ∧
      (fetchListSettle (Except.error e) s).loading = false ∧
      (fetchListSettle (Except.error e) s).list = s.list ∧
      (fetchListSettle (Except.error e) s).count = s.count) := by
  constructor
  · intro res hres
    simp [fetchList, fetchListSettle, fetchListCatch, fetchListBegin, awaitData, hres]
  · intro e he
    simp [fetchList, fetchListSettle, fetchListCatch, fetchListBegin, awaitData, he]

/-- Witness for C7: HTTP 500 and a `TypeError` rejection on the loaded store. -/
theorem fetchList_failure_witness :
    (({ status := 500, json := Except.ok { count := 0, results := some [] } } :
        Response ListData).ok = false ∧
      (fetchList
        (Except.ok { status := 500, json := Except.ok { count := 0, results := some [] } })
        loadedStore).error = listErrorMessage) ∧
    (({ name := "TypeError", message := "Failed to fetch" } : JsError).name ≠ "AbortError" ∧
      (fetchList (Except.error { name := "TypeError", message := "Failed to fetch" })
        loadedStore).list = loadedStore.list) :=
  ⟨⟨by decide, ((fetchList_failure loadedStore).1 _ (by decide)).1⟩,
    ⟨by decide, ((fetchList_failure loadedStore).2 _ (by decide)).2.2.1⟩⟩

/-- C8 on the code: the completion of an aborted request leaves `list`, `count`, `error`
(`detail`, `detailError`) as they are but still runs the `finally` block, so it sets `loading`
(`detailLoading`) to `false`; run after a newer request has set `loading` to `true`, it
overwrites that flag. -/
theorem abort_settle_clears_loading :
    (∀ s : Store, fetchListSettle (Except.error abortError) s = { s with loading := false }) ∧
    (∀ s : Store,
      fetchDetailSettle (Except.error abortError) s = { s with detailLoading := false }) ∧
    (fetchListBegin loadedStore).loading = true ∧
    (fetchListSettle (Except.error abortError) (fetchListBegin loadedStore)).loading = false ∧
    (fetchDetailBegin loadedStore).detailLoading = true ∧
    (fetchDetailSettle (Except.error abortError) (fetchDetailBegin loadedStore)).detailLoading
      = false := by
  refine ⟨?_, ?_, by decide, by decide, by decide, by decide⟩
  · intro s
    simp [fetchListSettle, fetchListCatch, awaitData, abortError]
  · intro s
    simp [fetchDetailSettle, awaitData, abortError]

/-! ## Page bounds -/

theorem ceilDiv_eq_ceil (count : Int) :
    ceilDiv count PAGE_SIZE = ⌈(count : ℚ) / 24⌉ := by
  symm
  rw [Int.ceil_eq_iff]
  unfold ceilDiv PAGE_SIZE
  have h1 : 24 * (-(-count / 24) - 1) < count := by omega
  have h2 : count ≤ 24 * (-(-count / 24)) := by omega
  constructor
  · rw [lt_div_iff₀ (by norm_num)]
    have : ((24 * (-(-count / 24) - 1) : Int) : ℚ) < (count : ℚ) := by exact_mod_cast h1
    push_cast at this ⊢
    linarith
  · rw [div_le_iff₀ (by norm_num)]
    have : ((count : Int) : ℚ) ≤ ((24 * (-(-count / 24)) : Int) : ℚ) := by exact_mod_cast h2
    push_cast at this ⊢
    linarith

theorem maxPage_nonneg (count : Int) : 0 ≤ maxPage count := by
  unfold maxPage; exact le_max_left _ _

theorem maxPage_mono (c d : Int) (h : c ≤ d) : maxPage c ≤ maxPage d := by
  unfold maxPage ceilDiv PAGE_SIZE
  omega

theorem goToPageNumber_page (pn : Int) (s : Store) :
    (goToPageNumber pn s).page = max 1 (min (totalPages s.count) pn) - 1 := rfl

theorem goToPageNumber_count (pn : Int) (s : Store) :
    (goToPageNumber pn s).count = s.count := rfl

theorem fetchList_okResponse_page (data : ListData) (s : Store) :
    (fetchList (okResponse data) s).page = s.page := by
  cases h : data.results <;>
    simp [fetchList, fetchListSettle, fetchListCatch, fetchListBegin, awaitData, okResponse,
      Response.ok, h]

theorem fetchList_okResponse_count (data : ListData) (s : Store) :
    (fetchList (okResponse data) s).count = data.count := by
  cases h : data.results <;>
    simp [fetchList, fetchListSettle, fetchListCatch, fetchListBegin, awaitData, okResponse,
      Response.ok, h]

theorem reachable_shrunkStore : Reachable shrunkStore :=
  Reachable.fetched 0 [] _ (by decide)
    (Reachable.goTo 55 _ (Reachable.fetched 1302 [] _ (by decide) Reachable.init))

/-- C9, as stated, fails: after a fetch stores count 1302, `goToPageNumber(55)`, and a later
fetch stores count 0, the reachable state has `page = 54` while `maxPage = 0`. -/
theorem page_exceeds_maxPage_after_count_drop :
    Reachable shrunkStore ∧ shrunkStore.page = 54 ∧ maxPage shrunkStore.count = 0 ∧
      ¬ (0 ≤ shrunkStore.page ∧ shrunkStore.page ≤ maxPage shrunkStore.count) :=
  ⟨reachable_shrunkStore, by decide, by decide, by decide⟩

/-- C9, amended: in every state reachable from the initial state by `goToPageNumber(pn)` calls
with arbitrary `pn` and successful list fetches whose stored count never decreases,
`0 ≤ page ≤ maxPage` holds; with arbitrary non-negative counts `0 ≤ page` still holds; and
`goToPageNumber` clamps a requested page number outside `[1, totalPages]` to the nearest
boundary, so right after it `page` is within `[0, maxPage]`. -/
theorem page_within_bounds :
    (∀ s, ReachableGrowing s → 0 ≤ s.page ∧ s.page ≤ maxPage s.count) ∧
    (∀ s, Reachable s → 0 ≤ s.page) ∧
    (∀ (pn : Int) (s : Store),
      0 ≤ (goToPageNumber pn s).page ∧ (goToPageNumber pn s).page ≤ maxPage s.count ∧
      (pn < 1 → (goToPageNumber pn s).page = 0) ∧
      (totalPages s.count < pn → (goToPageNumber pn s).page = maxPage s.count) ∧
      (1 ≤ pn → pn ≤ totalPages s.count → (goToPageNumber pn s).page = pn - 1)) := by
  have hgo : ∀ (pn : Int) (s : Store),
      0 ≤ (goToPageNumber pn s).page ∧ (goToPageNumber pn s).page ≤ maxPage s.count ∧
      (pn < 1 → (goToPageNumber pn s).page = 0) ∧
      (totalPages s.count < pn → (goToPageNumber pn s).page = maxPage s.count) ∧
      (1 ≤ pn → pn ≤ totalPages s.count → (goToPageNumber pn s).page = pn - 1) := by
    intro pn s
    have hm := maxPage_nonneg s.count
    rw [goToPageNumber_page]
    unfold totalPages
    refine ⟨by omega, by omega, ?_, ?_, ?_⟩ <;> intros <;> omega
  refine ⟨?_, ?_, hgo⟩
  · intro s hs
    induction hs with
    | init => exact ⟨by decide, by decide⟩
    | goTo pn s _ _ =>
      rw [goToPageNumber_count]
      exact ⟨(hgo pn s).1, (hgo pn s).2.1⟩
    | fetched count results s hle _ ih =>
      rw [fetchList_okResponse_page, fetchList_okResponse_count]
      have := maxPage_mono _ _ hle
      simp only []
      omega
  · intro s hs
    induction hs with
    | init => decide
    | goTo pn s _ _ => exact (hgo pn s).1
    | fetched count results s _ _ ih =>
      rw [fetchList_okResponse_page]
      exact ih

/-- Witness for C9: the state after loading count 1302 and going to page number 99. -/
theorem page_within_bounds_witness :
    ReachableGrowing (goToPageNumber 99 (fetchList (countResponse 1302) initialStore)) ∧
      (0 ≤ (goToPageNumber 99 (fetchList (countResponse 1302) initialStore)).page ∧
        (goToPageNumber 99 (fetchList (countResponse 1302) initialStore)).page
          ≤ maxPage (goToPageNumber 99 (fetchList (countResponse 1302) initialStore)).count) ∧
      (goToPageNumber 99 (fetchList (countResponse 1302) initialStore)).page = 54 :=
  ⟨ReachableGrowing.goTo 99 _
      (ReachableGrowing.fetched 1302 [] _ (by decide) ReachableGrowing.init),
    page_within_bounds.1 _
      (ReachableGrowing.goTo 99 _
        (ReachableGrowing.fetched 1302 [] _ (by decide) ReachableGrowing.init)),
    by decide⟩

theorem totalPages_exact (count : Int) : totalPages count = max 1 ⌈(count : ℚ) / 24⌉ := by
  unfold totalPages maxPage
  rw [ceilDiv_eq_ceil]
  omega

/-! ### The page count in doubles -/

theorem roundNearestEven_bounds (n r P : Nat) (hr : r < 24) (hP : 16 ≤ P) :
    (r = 0 → roundNearestEven ((24 * n + r) * P) 24 = n * P) ∧
    (r ≠ 0 → n * P + 1 ≤ roundNearestEven ((24 * n + r) * P) 24 ∧
      roundNearestEven ((24 * n + r) * P) 24 ≤ n * P + P) := by
  have hX : (24 * n + r) * P = 24 * (n * P) + r * P := by ring
  rw [hX]
  generalize n * P = X
  unfold roundNearestEven
  interval_cases r
  all_goals (simp only []; constructor <;> intro h0 <;> first | omega | (split_ifs <;> omega))

/-- A quotient by 24 kept with at least four binary places has the exact ceiling. -/
theorem ceil_of_scaled (a P : Nat) (hP : 16 ≤ P) :
    (roundNearestEven (a * P) 24 + P - 1) / P = (a + 23) / 24 := by
  obtain ⟨n, r, hr, ha⟩ : ∃ n r, r < 24 ∧ a = 24 * n + r :=
    ⟨a / 24, a % 24, Nat.mod_lt _ (by decide), by omega⟩
  subst ha
  obtain ⟨h0, h1⟩ := roundNearestEven_bounds n r P hr hP
  by_cases hr0 : r = 0
  · subst hr0
    have hM := h0 rfl
    have hq : (24 * n + 0 + 23) / 24 = n := by omega
    rw [hq]
    apply Nat.div_eq_of_lt_le
    · omega
    · have : (n + 1) * P = n * P + P := by ring
      omega
  · obtain ⟨hlo, hhi⟩ := h1 hr0
    have hq : (24 * n + r + 23) / 24 = n + 1 := by omega
    rw [hq]
    have e1 : (n + 1) * P = n * P + P := by ring
    have e2 : (n + 1 + 1) * P = n * P + P + P := by ring
    apply Nat.div_eq_of_lt_le <;> omega

theorem divExponent_le (a : Nat) (h0 : a ≠ 0) (h : a < 2 ^ 53) : divExponent a 24 ≤ -4 := by
  have hl : floorLog2 a < 53 := floorLog2_lt a 53 h0 h
  have h24 : floorLog2 24 = 4 := by decide
  unfold divExponent
  simp only [h24, Int.ofNat_eq_coe]
  split_ifs <;> omega

theorem ceilOfQuotient_of_lt (a : Nat) (h0 : a ≠ 0) (h : a < 2 ^ 53) :
    ceilOfQuotient a 24 = (a + 23) / 24 := by
  have he := divExponent_le a h0 h
  have hneg : ¬ 0 ≤ divExponent a 24 := by omega
  have hz : (divExponent a 24).toNat = 0 := by omega
  obtain ⟨k, hk⟩ : ∃ k, (-divExponent a 24).toNat = k + 4 :=
    ⟨(-divExponent a 24).toNat - 4, by omega⟩
  have hP : 16 ≤ 2 ^ (k + 4) := by
    have : 2 ^ 4 ≤ 2 ^ (k + 4) := Nat.pow_le_pow_right (by decide) (by omega)
    omega
  unfold ceilOfQuotient divMantissa
  rw [if_neg hneg, hz, hk, pow_zero, Nat.mul_one]
  exact ceil_of_scaled a (2 ^ (k + 4)) hP

theorem ceilOfQuotient_of_le (a : Nat) (h0 : a ≠ 0) (h : a ≤ 2 ^ 53) :
    ceilOfQuotient a 24 = (a + 23) / 24 := by
  by_cases h1 : a < 2 ^ 53
  · exact ceilOfQuotient_of_lt a h0 h1
  · have : a = 2 ^ 53 := by omega
    subst this
    decide

/-- Up to `2 ^ 53` the double `Math.ceil(count / 24)` is the exact ceiling. -/
theorem float64_ceilDiv_eq (count : Int) (h0 : 0 < count) (h : count ≤ 2 ^ 53) :
    Float64.ceilDiv count PAGE_SIZE.toNat = ceilDiv count PAGE_SIZE := by
  have hp : PAGE_SIZE.toNat = 24 := by decide
  unfold Float64.ceilDiv ceilDiv
  rw [if_pos h0, hp, ceilOfQuotient_of_le count.toNat (by omega) (by omega)]
  simp only [PAGE_SIZE, Int.ofNat_eq_coe]
  omega

theorem float64_ceilDiv_nonpos (count : Int) (h0 : count ≤ 0) :
    Float64.ceilDiv count PAGE_SIZE.toNat ≤ 0 := by
  unfold Float64.ceilDiv
  rw [if_neg (by omega)]
  simp only [Int.ofNat_eq_coe]
  omega

/-- Up to `2 ^ 53` the page count in doubles is the page count on exact integers. -/
theorem float64_totalPages_eq (count : Int) (h : count ≤ 2 ^ 53) :
    Float64.totalPages count = totalPages count := by
  unfold Float64.totalPages Float64.maxPage totalPages maxPage
  by_cases h0 : 0 < count
  · rw [float64_ceilDiv_eq count h0 h]
    have hc1 : 1 ≤ ceilDiv count PAGE_SIZE := by unfold ceilDiv PAGE_SIZE; omega
    have hc2 : ceilDiv count PAGE_SIZE ≤ 2 ^ 53 - 1 := by unfold ceilDiv PAGE_SIZE; omega
    rw [toDouble_of_abs_le (ceilDiv count PAGE_SIZE - 1) (by omega) (by omega)]
    rw [toDouble_of_abs_le _ (by omega) (by omega)]
  · have hn := float64_ceilDiv_nonpos count (by omega)
    have hd := toDouble_nonpos (Float64.ceilDiv count PAGE_SIZE.toNat - 1) (by omega)
    have hc : ceilDiv count PAGE_SIZE ≤ 0 := by unfold ceilDiv PAGE_SIZE; omega
    rw [max_eq_left hd, max_eq_left (by omega)]
    decide

theorem ceil_of_large_count :
    ⌈((108086391056891936 : Int) : ℚ) / 24⌉ = 4503599627370498 := by
  rw [← ceilDiv_eq_ceil]
  decide

/-- C10, as stated, fails for large counts, where the quotient and the `- 1`, `+ 1` are
rounded to doubles: for `count = 108086391056891936` the derived `totalPages` is
`4503599627370497` while `max(1, ceil(count / 24))` is `4503599627370498`; for
`count = 216172782113783872` the code's own `Math.ceil(count / 24)` is `2^53 + 2` while its
`totalPages` is `2^53`. -/
theorem totalPages_rounded :
    Float64.totalPages 108086391056891936 = 4503599627370497 ∧
    max 1 ⌈((108086391056891936 : Int) : ℚ) / 24⌉ = 4503599627370498 ∧
    Float64.totalPages 108086391056891936 ≠ max 1 ⌈((108086391056891936 : Int) : ℚ) / 24⌉ ∧
    Float64.ceilDiv 216172782113783872 24 = 9007199254740994 ∧
    Float64.totalPages 216172782113783872 = 9007199254740992 ∧
    Float64.totalPages 216172782113783872
      ≠ max 1 (Float64.ceilDiv 216172782113783872 24) := by
  refine ⟨by decide, ?_, ?_, by decide, by decide, by decide⟩
  · rw [ceil_of_large_count]; decide
  · rw [ceil_of_large_count]; decide

/-- C10, amended: for every integer `count ≤ 2 ^ 53`, the `totalPages` value the component
derives (`maxPage + 1` with `maxPage = max(0, ceil(count / 24) - 1)`, in doubles) equals
`max(1, ceil(count / 24))`, for the exact ceiling and for the code's own; hence it is at least
1 even when `count` is 0, and for `count = 1302` it is 55. -/
theorem totalPages_eq (count : Int) (h : count ≤ 2 ^ 53) :
    Float64.totalPages count = max 1 ⌈(count : ℚ) / 24⌉ ∧
      Float64.totalPages count = max 1 (Float64.ceilDiv count PAGE_SIZE.toNat) ∧
      Float64.totalPages count = totalPages count ∧
      1 ≤ Float64.totalPages count ∧
      Float64.totalPages 0 = 1 ∧ Float64.totalPages 1302 = 55 := by
  have he := float64_totalPages_eq count h
  have hx := totalPages_exact count
  refine ⟨by rw [he, hx], ?_, he, ?_, by decide, by decide⟩
  · rw [he]
    by_cases h0 : 0 < count
    · rw [float64_ceilDiv_eq count h0 h]
      unfold totalPages maxPage
      omega
    · have hn := float64_ceilDiv_nonpos count (by omega)
      have hc : ceilDiv count PAGE_SIZE ≤ 0 := by unfold ceilDiv PAGE_SIZE; omega
      unfold totalPages maxPage
      omega
  · rw [he]
    have := maxPage_nonneg count
    unfold totalPages
    omega

/-- Witness for C10 at `count = 1302`. -/
theorem totalPages_eq_witness :
    (1302 : Int) ≤ 2 ^ 53 ∧
      Float64.totalPages 1302 = max 1 ⌈((1302 : Int) : ℚ) / 24⌉ ∧
      Float64.totalPages 1302 = 55 :=
  ⟨by norm_num, (totalPages_eq 1302 (by norm_num)).1, (totalPages_eq 1302 (by norm_num)).2.2.2.2.2⟩

/-! ## Scenario evaluations -/

theorem buildPagination_first_page_scenario :
    buildPagination 1 55 2
      = [PageItem.num 1, PageItem.num 2, PageItem.num 3, PageItem.dots, PageItem.num 55] := by
  decide

theorem buildPagination_single_page_scenario (current total siblingCount : Int)
    (h : total ≤ 1) : buildPagination current total siblingCount = [PageItem.num 1] :=
  buildPagination_of_le_one current total siblingCount h

theorem paginationItems_scenario :
    paginationItems { loadedStore with page := 27 }
      = [PageItem.num 1, PageItem.dots, PageItem.num 26, PageItem.num 27, PageItem.num 28,
          PageItem.num 29, PageItem.num 30, PageItem.dots, PageItem.num 55] := by
  decide

/-- The plans around page 10 of 57 for sibling counts 1, 0 and 2: one contiguous window around
the current page, never the run `1 2 3 … 10 … 57` of the comment above `buildPagination`. -/
theorem buildPagination_page_ten_scenario :
    buildPagination 10 57 1
        = [PageItem.num 1, PageItem.dots, PageItem.num 9, PageItem.num 10, PageItem.num 11,
            PageItem.dots, PageItem.num 57] ∧
      buildPagination 10 57 0
        = [PageItem.num 1, PageItem.dots, PageItem.num 10, PageItem.dots, PageItem.num 57] ∧
      buildPagination 10 57 2
        = [PageItem.num 1, PageItem.dots, PageItem.num 8, PageItem.num 9, PageItem.num 10,
            PageItem.num 11, PageItem.num 12, PageItem.dots, PageItem.num 57] := by
  decide

/-- An id past `2 ^ 53` is rounded by `Number`. -/
theorem idFromPokemonUrl_rounded_scenario :
    idFromPokemonUrl "https://pokeapi.co/api/v2/pokemon/9007199254740993/"
      = some 9007199254740992 := by
  decide

/-- A status-200 body without `results`: the count is stored, then the failure message is set
and the list is kept. -/
theorem fetchList_missing_results_scenario :
    (fetchList (okResponse { count := 7, results := none }) loadedStore).count = 7 ∧
      (fetchList (okResponse { count := 7, results := none }) loadedStore).error
        = listErrorMessage ∧
      (fetchList (okResponse { count := 7, results := none }) loadedStore).list = [pikachu] ∧
      (fetchList (okResponse { count := 7, results := none }) loadedStore).loading = false := by
  decide

theorem idFromPokemonUrl_scenario :
    idFromPokemonUrl "https://pokeapi.co/api/v2/pokemon/1/" = some 1 ∧
      idFromPokemonUrl "https://pokeapi.co/api/v2/pokemon/1302/" = some 1302 ∧
      idFromPokemonUrl "https://pokeapi.co/api/v2/pokemon/" = none := by
  decide

theorem fetchList_success_scenario :
    (fetchList
      (okResponse { count := 1302,
                    results := some [{ name := "bulbasaur",
                                       url := "https://pokeapi.co/api/v2/pokemon/1/" }] })
      initialStore).list
      = [{ name := "bulbasaur", url := "https://pokeapi.co/api/v2/pokemon/1/", id := some 1 }] := by
  decide

end App
